import Mathlib

/-!
Shallow embedding of the mmarinus memory-mapping library (src/map.rs,
src/builder.rs, src/perms.rs, src/error.rs).

Machine integers: `usize` is modelled as `Nat` with explicit wrapping
`% 2 ^ 64` where the source performs arithmetic that may overflow;
`c_int`/`c_long`/`off_t` are modelled as `Int` (with two's-complement
32-bit wrapping via `wrap32` where the source shifts an `i32`).

Syscalls (`sysconf`, `mmap`, `mprotect`) are modelled by passing their
results as explicit parameters.  The `forget` calls that suppress a
`Drop` are modelled by boolean fields (`forgotSelf`, `forgotPrev`) in
the operation outputs, and the arguments handed to `mmap` are recorded
in an `MmapCall` so that "the syscall was never issued" is observable
(`call = none`).
-/

/-! ### libc constants (Linux) -/

def PROT_NONE : Int := 0
def PROT_READ : Int := 1
def PROT_WRITE : Int := 2
def PROT_EXEC : Int := 4
def MAP_SHARED : Int := 1
def MAP_PRIVATE : Int := 2
def MAP_FIXED : Int := 16
def MAP_ANONYMOUS : Int := 32
def MAP_HUGETLB : Int := 262144
def MAP_HUGE_SHIFT : Nat := 26
def MAP_HUGE_MASK : Int := 63
def MAP_FIXED_NOREPLACE : Int := 1048576
def EINVAL : Int := 22

/-- The `usize` modulus: addresses and sizes are 64-bit machine words. -/
def USIZE : Nat := 2 ^ 64

/-- Two's-complement wrap of an integer into `i32`'s range
(used where the source shifts an `i32` left, which keeps the low 32 bits). -/
def wrap32 (x : Int) : Int := (x + 2 ^ 31) % 2 ^ 32 - 2 ^ 31

/-! Bitwise operations on `i32`, modelled over the two's-complement bit
pattern.  They are written with an explicit bit-count so that they
reduce by kernel evaluation. -/

/-- Bitwise AND of the low `w` bits of two naturals. -/
def natAndBits : Nat → Nat → Nat → Nat
  | 0, _, _ => 0
  | w + 1, a, b => (a % 2) * (b % 2) + 2 * natAndBits w (a / 2) (b / 2)

/-- Bitwise OR of the low `w` bits of two naturals. -/
def natOrBits : Nat → Nat → Nat → Nat
  | 0, _, _ => 0
  | w + 1, a, b =>
    ((a % 2) + (b % 2) - (a % 2) * (b % 2)) + 2 * natOrBits w (a / 2) (b / 2)

/-- The `u32` bit pattern of an `i32` value. -/
def u32 (x : Int) : Nat := (x % 2 ^ 32).toNat

/-- The `i32` bitwise AND (`x & y`). -/
def i32And (x y : Int) : Int := wrap32 (natAndBits 32 (u32 x) (u32 y))

/-- The `i32` bitwise OR (`x | y`). -/
def i32Or (x y : Int) : Int := wrap32 (natOrBits 32 (u32 x) (u32 y))

/-- The `i32` bitwise NOT: in two's complement `!x = -x - 1`. -/
def i32Not (x : Int) : Int := -x - 1

/-- The `i32` left shift (`x << n`), keeping the low 32 bits. -/
def i32Shl (x : Int) (n : Nat) : Int := wrap32 (x * 2 ^ n)

/-! ### Mapping-kind model (`Private` / `Shared`, traits `Kind` and `Safe`) -/

/-- The two mapping kinds of src/map.rs: `Private` and `Shared`. -/
inductive KindTag
  | Private
  | Shared
deriving DecidableEq

/-- Method `Kind::kind`: the raw flag bits of each kind
(`MAP_PRIVATE` for `Private`, `MAP_SHARED` for `Shared`). -/
def KindTag.kind : KindTag → Int
  | .Private => MAP_PRIVATE
  | .Shared => MAP_SHARED

/-- The `Safe` marker trait: in src/map.rs only `Private` has `impl Safe`. -/
def KindTag.safe : KindTag → Bool
  | .Private => true
  | .Shared => false

/-! ### Permission capability model (src/perms.rs) -/

/-- The phantom capability tag of a `Map<T, K>`: the eight `Known`
zero-sized permission types of src/perms.rs plus `Unknown`
(which as a type parameter carries no runtime value). -/
inductive PermTag
  | None
  | Read
  | Write
  | Execute
  | ReadWrite
  | ReadExecute
  | WriteExecute
  | ReadWriteExecute
  | Unknown
deriving DecidableEq

/-- A permission *selector value* as passed to `with`/`reprotect`:
a `Known` unit value, or `Unknown(raw)` wrapping a runtime protection mask. -/
inductive PermVal
  | None
  | Read
  | Write
  | Execute
  | ReadWrite
  | ReadExecute
  | WriteExecute
  | ReadWriteExecute
  | Unknown (raw : Int)
deriving DecidableEq

/-- Method `Type::perms`: the raw protection bits of a selector.  For `Known`
selectors this is the associated `VALUE` constant of src/perms.rs;
for `Unknown` it is the wrapped runtime value. -/
def PermVal.perms : PermVal → Int
  | .None => PROT_NONE
  | .Read => PROT_READ
  | .Write => PROT_WRITE
  | .Execute => PROT_EXEC
  | .ReadWrite => i32Or PROT_READ PROT_WRITE
  | .ReadExecute => i32Or PROT_READ PROT_EXEC
  | .WriteExecute => i32Or PROT_WRITE PROT_EXEC
  | .ReadWriteExecute => i32Or (i32Or PROT_READ PROT_WRITE) PROT_EXEC
  | .Unknown raw => raw

/-- The type-level tag a selector stamps onto the resulting `Map`. -/
def PermVal.tag : PermVal → PermTag
  | .None => .None
  | .Read => .Read
  | .Write => .Write
  | .Execute => .Execute
  | .ReadWrite => .ReadWrite
  | .ReadExecute => .ReadExecute
  | .WriteExecute => .WriteExecute
  | .ReadWriteExecute => .ReadWriteExecute
  | .Unknown _ => .Unknown

/-- The `Readable` marker trait impls of src/perms.rs. -/
def PermTag.readable : PermTag → Bool
  | .Read | .ReadWrite | .ReadExecute | .ReadWriteExecute => true
  | _ => false

/-- The `Writeable` marker trait impls of src/perms.rs. -/
def PermTag.writeable : PermTag → Bool
  | .Write | .ReadWrite | .WriteExecute | .ReadWriteExecute => true
  | _ => false

/-- The `Executable` marker trait impls of src/perms.rs. -/
def PermTag.executable : PermTag → Bool
  | .Execute | .ReadExecute | .WriteExecute | .ReadWriteExecute => true
  | _ => false

/-! ### The mapped region (`Map<T, K>` of src/map.rs) -/

/-- Struct `Map<T, K>`: address and size are `usize`; the phantom type
parameters `T` (capability) and `K` (kind) are carried as tag fields. -/
structure Map where
  addr : Nat
  size : Nat
  perm : PermTag
  kind : KindTag
deriving DecidableEq

/-- The `Drop` impl of `Map`: `munmap` is invoked on release
exactly when `size > 0`. -/
def Map.releasesOnDrop (m : Map) : Bool := decide (0 < m.size)

/-- The `Deref` impl to `[u8]` is available exactly when `K: Safe` and `T: Readable`. -/
def Map.derefAllowed (m : Map) : Bool := m.kind.safe && m.perm.readable

/-- The `DerefMut` impl is available exactly when `K: Safe` and `T: Readable + Writeable`. -/
def Map.derefMutAllowed (m : Map) : Bool :=
  m.kind.safe && m.perm.readable && m.perm.writeable

/-- The slice produced by `Deref`/`DerefMut`:
`from_raw_parts(self.addr, self.size)` — the (address, length) range. -/
def Map.sliceRange (m : Map) : Nat × Nat := (m.addr, m.size)

/-! ### Error type (src/error.rs) -/

/-- The two `std::io::ErrorKind` values used by the library. -/
inductive IoErrorKind
  | InvalidInput
  | InvalidData
deriving DecidableEq

/-- The `std::io::Error` values the library constructs. -/
inductive IoErrorRep
  | fromRawOsError (errno : Int)
  | fromKind (k : IoErrorKind)
  | lastOsError (errno : Int)
deriving DecidableEq

/-- Struct `Error<M>` of src/error.rs: the recovered ownership payload
together with the underlying OS error. -/
structure MError (M : Type) where
  map : M
  err : IoErrorRep
deriving DecidableEq

/-! ### `Map::split` / `Map::split_at` (src/map.rs lines 210-266) -/

/-- Result of a split: the two new regions, or the error carrying
the original region back. -/
inductive SplitRes
  | ok (l r : Map)
  | err (e : MError Map)
deriving DecidableEq

/-- A split's outcome together with whether `forget(self)` ran
(suppressing the original region's release). -/
structure SplitOut where
  result : SplitRes
  forgotSelf : Bool
deriving DecidableEq

/-- Conversion `usize::try_from` on the `c_long` returned by
`sysconf(_SC_PAGESIZE)`: succeeds exactly on non-negative values. -/
def usizeFromCLong (v : Int) : Option Nat :=
  if 0 ≤ v then some v.toNat else none

/-- Method `Map::split(self, offset)`.  `pageSizeRet` is the raw return value of
`libc::sysconf(libc::_SC_PAGESIZE)`.  The split address is
`self.addr + offset` (usize addition, wrapping at `2 ^ 64`). -/
def Map.split (m : Map) (offset : Nat) (pageSizeRet : Int) : SplitOut :=
  match usizeFromCLong pageSizeRet with
  | some psize =>
    let addr := (m.addr + offset) % USIZE
    if offset ≤ m.size ∧ addr % psize = 0 then
      { result := .ok ⟨m.addr, offset, m.perm, m.kind⟩
          ⟨addr, m.size - offset, m.perm, m.kind⟩
        forgotSelf := true }
    else
      { result := .err ⟨m, .fromRawOsError EINVAL⟩, forgotSelf := false }
  | none => { result := .err ⟨m, .fromRawOsError EINVAL⟩, forgotSelf := false }

/-- Method `Map::split_at(self, addr)`: translates the address to an offset
(`self.size` when `addr < self.addr`, else `addr - self.addr`)
and delegates to `split`. -/
def Map.split_at (m : Map) (addr : Nat) (pageSizeRet : Int) : SplitOut :=
  let offset := match decide (addr ≥ m.addr) with
    | false => m.size
    | true => addr - m.addr
  m.split offset pageSizeRet

/-! ### `Map::reprotect` (src/map.rs lines 172-188) -/

/-- Result of `reprotect`: the retagged region, or the error carrying
the original region back. -/
inductive ReprotectRes
  | ok (m : Map)
  | err (e : MError Map)
deriving DecidableEq

/-- A reprotect's outcome together with whether `forget(self)` ran. -/
structure ReprotectOut where
  result : ReprotectRes
  forgotSelf : Bool
deriving DecidableEq

/-- Method `Map::reprotect(self, perms)`.  `mprotectRet` is the return value of
`libc::mprotect` and `errno` the OS error observed on failure. -/
def Map.reprotect (m : Map) (perms : PermVal) (mprotectRet : Int) (errno : Int) :
    ReprotectOut :=
  if mprotectRet ≠ 0 then
    { result := .err ⟨m, .lastOsError errno⟩, forgotSelf := false }
  else
    { result := .ok ⟨m.addr, m.size, perms.tag, m.kind⟩, forgotSelf := true }

/-! ### `From<Map<T, K>> for Map<perms::Unknown, K>` (src/map.rs lines 111-122) -/

/-- The `From` conversion of a known-capability map into an
unknown-capability map (requires `T: Known`, i.e. the tag is not
already `Unknown`).  Second component: whether `forget(value)` ran. -/
def Map.intoUnknown (m : Map) : Map × Bool :=
  (⟨m.addr, m.size, PermTag.Unknown, m.kind⟩, true)

/-! ### The staged builder (src/builder.rs) -/

/-- The placement directive `Address` of src/builder.rs. -/
inductive Address
  | None
  | At (a : Nat)
  | Near (a : Nat)
  | Onto (a : Nat)
deriving DecidableEq

/-- The `Size` stage: the requested length plus the carried payload `M`. -/
structure Size (M : Type) where
  prev : M
  size : Nat
deriving DecidableEq

/-- The `Destination` stage: the `Size` stage plus a placement directive. -/
structure Destination (M : Type) where
  prev : Size M
  addr : Address
deriving DecidableEq

/-- The `Source` stage: destination plus file descriptor, offset,
optional huge-page hint (an `i32`), and the kind value `K`. -/
structure Source (M : Type) where
  prev : Destination M
  fd : Int
  offset : Int
  huge : Option Int
  kind : KindTag
deriving DecidableEq

namespace Builder

/-- Method `Builder::<Size<M>>::anywhere`: unconstrained placement. -/
def anywhere {M : Type} (b : Size M) : Destination M :=
  { prev := b, addr := Address.None }

/-- Method `Builder::<Size<M>>::at`: fixed-required placement (`MAP_FIXED_NOREPLACE`). -/
def at_ {M : Type} (b : Size M) (addr : Nat) : Destination M :=
  { prev := b, addr := Address.At addr }

/-- Method `Builder::<Size<M>>::near`: hint placement. -/
def near {M : Type} (b : Size M) (addr : Nat) : Destination M :=
  { prev := b, addr := Address.Near addr }

/-- Method `Builder::<Size<M>>::onto`: fixed-replacing placement (`MAP_FIXED`). -/
def onto {M : Type} (b : Size M) (addr : Nat) : Destination M :=
  { prev := b, addr := Address.Onto addr }

/-- Method `Builder::<Destination<M>>::anonymously`: no file backing —
offset forced to 0, descriptor forced to the no-file sentinel `-1`. -/
def anonymously {M : Type} (b : Destination M) : Source M :=
  { kind := .Private, prev := b, huge := none, offset := 0, fd := -1 }

/-- Method `Builder::<Destination<M>>::from`: file-backed source with the
file's raw descriptor and a byte offset. -/
def fromFile {M : Type} (b : Destination M) (fd : Int) (offset : Int) : Source M :=
  { fd := fd, kind := .Private, prev := b, huge := none, offset := offset }

/-- Method `Builder::<Source<M, K>>::with_huge_pages`: attaches a huge-page
power-of-two hint; the `u8` argument is widened to `i32`. -/
def with_huge_pages {M : Type} (s : Source M) (pow : Nat) : Source M :=
  { s with huge := some ((pow % 256 : Nat) : Int) }

/-- Method `Builder::<Source<M, K>>::with_kind`: replaces the kind value. -/
def with_kind {M : Type} (s : Source M) (kind : KindTag) : Source M :=
  { offset := s.offset, prev := s.prev, huge := s.huge, fd := s.fd, kind := kind }

end Builder

/-- The arguments handed to `libc::mmap` at finalize time. -/
structure MmapCall where
  addr : Nat
  len : Nat
  prot : Int
  flags : Int
  fd : Int
  offset : Int
deriving DecidableEq

/-- The modelled outcome of the `libc::mmap` syscall:
the returned address, or `MAP_FAILED` with the observed OS error. -/
inductive MmapRet
  | success (addr : Nat)
  | failed (errno : Int)
deriving DecidableEq

/-- Result of finalize: the new map, or the error carrying the
pre-call payload `M` back. -/
inductive MapRes (M : Type)
  | ok (m : Map)
  | err (e : MError M)
deriving DecidableEq

/-- A finalize's outcome: the recorded `mmap` invocation (`none` when
validation failed before the syscall), the result, and whether
`forget(self.0.prev.prev.prev)` ran. -/
structure FinalizeOut (M : Type) where
  call : Option MmapCall
  result : MapRes M
  forgotPrev : Bool
deriving DecidableEq

namespace Builder

/-- The placement translation of `Builder::<Source<M, K>>::map`:
`Address::None ↦ (0, 0)`, a nonzero `At`/`Near`/`Onto` address to the
`(address, fixed-flag)` pair, and a zero address to the rejected case. -/
def addrFixedOf : Address → Option (Nat × Int)
  | Address.None => some (0, 0)
  | Address.At a => if a ≠ 0 then some (a, MAP_FIXED_NOREPLACE) else none
  | Address.Near a => if a ≠ 0 then some (a, 0) else none
  | Address.Onto a => if a ≠ 0 then some (a, MAP_FIXED) else none

/-- The tail of `Builder::<Source<M, K>>::map` after the huge-page flag
bits have been computed: placement translation, anonymous flag, flag
combination, syscall, and construction of the new `Map`. -/
def mapAfterHuge {M : Type} (s : Source M) (perms : PermVal) (mmapRet : MmapRet)
    (huge : Int) : FinalizeOut M :=
  let einval : IoErrorRep := .fromKind .InvalidInput
  match addrFixedOf s.prev.addr with
  | none => { call := none, result := .err ⟨s.prev.prev.prev, einval⟩, forgotPrev := false }
  | some (addr, fixed) =>
    let anon : Int := if s.fd = -1 then MAP_ANONYMOUS else 0
    let size := s.prev.prev.size
    let flags := i32Or (i32Or (i32Or s.kind.kind fixed) anon) huge
    let call : MmapCall :=
      { addr := addr, len := size, prot := perms.perms, flags := flags
        fd := s.fd, offset := s.offset }
    match mmapRet with
    | .failed errno =>
      { call := some call, result := .err ⟨s.prev.prev.prev, .lastOsError errno⟩
        forgotPrev := false }
    | .success retAddr =>
      { call := some call
        result := .ok ⟨retAddr, s.prev.prev.size, perms.tag, s.kind⟩
        forgotPrev := true }

/-- Method `Builder::<Source<M, K>>::map`: validates the huge-page hint
(`x & !MAP_HUGE_MASK` must be 0, else invalid-argument returning the
`Size` stage's payload), then continues with the huge-page flag bits
`(x << MAP_HUGE_SHIFT) | MAP_HUGETLB` (an `i32` shift, so wrapped). -/
def map {M : Type} (s : Source M) (perms : PermVal) (mmapRet : MmapRet) :
    FinalizeOut M :=
  let einval : IoErrorRep := .fromKind .InvalidInput
  match s.huge with
  | some x =>
    if i32And x (i32Not MAP_HUGE_MASK) ≠ 0 then
      { call := none, result := .err ⟨s.prev.prev.prev, einval⟩, forgotPrev := false }
    else
      mapAfterHuge s perms mmapRet (i32Or (i32Shl x MAP_HUGE_SHIFT) MAP_HUGETLB)
  | none => mapAfterHuge s perms mmapRet 0

end Builder

/-- Method `Map::remap`: re-enters the `Destination` stage with placement
`Address::Onto(self.addr)`, size `self.size`, and the region itself
as the carried payload. -/
def Map.remap (m : Map) : Destination Map :=
  { addr := Address.Onto m.addr, prev := { size := m.size, prev := m } }

/-- Method `Map::bytes`: begins a fresh pipeline with an empty `()` payload. -/
def Map.bytes (size : Nat) : Size Unit :=
  { prev := (), size := size }

/-- The possible huge-page flag components a finalize can combine into
its flags, indexed by the hint value: the hint `n < 64` produces
`(n << MAP_HUGE_SHIFT) | MAP_HUGETLB`, and index 64 stands for the
absent hint (component 0). -/
def hugeOf (n : Nat) : Int :=
  if n = 64 then 0 else i32Or (i32Shl (n : Int) MAP_HUGE_SHIFT) MAP_HUGETLB

/-! ### Shared helper lemmas -/

/-- On a successful page-size query, an in-bounds aligned offset makes
`split` succeed with the two adjacent pieces and `forget(self)` run. -/
theorem Map.split_success (m : Map) (o : Nat) (pres : Int) (psize : Nat)
    (hp : usizeFromCLong pres = some psize)
    (hov : m.addr + o < USIZE)
    (ho : o ≤ m.size)
    (ha : (m.addr + o) % psize = 0) :
    m.split o pres =
      { result := .ok ⟨m.addr, o, m.perm, m.kind⟩
          ⟨m.addr + o, m.size - o, m.perm, m.kind⟩
        forgotSelf := true } := by
  unfold Map.split
  rw [hp]
  have hw : (m.addr + o) % USIZE = m.addr + o := Nat.mod_eq_of_lt hov
  simp [hw, ho, ha]

/-! ### Claim theorems -/

/-- C1: for a Region with address `A` and length `L`, any offset `o ≤ L`
with `A + o` page-aligned makes `split` succeed, yielding a left Region
`(A, o)` and a right Region `(A + o, L - o)` that exactly partition the
original range (`o + (L - o) = L`), with the original Region's release
suppressed; at `o = 0` the left piece has length 0 and both pieces have
address `A`. -/
theorem c1_split_partitions (m : Map) (o : Nat) (pres : Int) (psize : Nat)
    (hp : usizeFromCLong pres = some psize)
    (hov : m.addr + o < USIZE)
    (ho : o ≤ m.size)
    (ha : (m.addr + o) % psize = 0) :
    m.split o pres =
      { result := .ok ⟨m.addr, o, m.perm, m.kind⟩
          ⟨m.addr + o, m.size - o, m.perm, m.kind⟩
        forgotSelf := true }
    ∧ o + (m.size - o) = m.size :=
  ⟨Map.split_success m o pres psize hp hov ho ha, by omega⟩

/-- Witness for C1 at `m = (4096, 8192)`, `o = 0`, page size 4096:
the left piece is `(4096, 0)` and the right piece is `(4096, 8192)`. -/
theorem c1_split_partitions_witness :
    Map.split ⟨4096, 8192, PermTag.Read, KindTag.Private⟩ 0 4096 =
      { result := .ok ⟨4096, 0, PermTag.Read, KindTag.Private⟩
          ⟨4096, 8192, PermTag.Read, KindTag.Private⟩
        forgotSelf := true }
    ∧ 0 + (8192 - 0) = 8192 := by
  have h := c1_split_partitions ⟨4096, 8192, PermTag.Read, KindTag.Private⟩ 0 4096 4096
    (by decide) (by decide) (by decide) (by decide)
  simpa using h

/-- C2: splitting at a non-page-aligned offset fails with the
invalid-argument error `EINVAL` and returns the Region unchanged, and
splitting at an offset greater than the length likewise fails with
`EINVAL` returning the Region intact. -/
theorem c2_split_rejects (m : Map) (o : Nat) (pres : Int) :
    (∀ psize : Nat, usizeFromCLong pres = some psize → m.addr + o < USIZE →
      (m.addr + o) % psize ≠ 0 →
      m.split o pres = ⟨.err ⟨m, .fromRawOsError EINVAL⟩, false⟩)
    ∧ (m.size < o →
      m.split o pres = ⟨.err ⟨m, .fromRawOsError EINVAL⟩, false⟩) := by
  constructor
  · intro psize hp hov ha
    unfold Map.split
    rw [hp]
    have hw : (m.addr + o) % USIZE = m.addr + o := Nat.mod_eq_of_lt hov
    simp [hw, ha]
  · intro hlt
    unfold Map.split
    cases hps : usizeFromCLong pres with
    | none => rfl
    | some psize =>
      have hcond : ¬(o ≤ m.size ∧ (m.addr + o) % USIZE % psize = 0) := by
        rintro ⟨h1, -⟩; omega
      simp [hcond]

/-- Witness for C2: offset 5 is unaligned for page size 4096, and
offset 9000 exceeds the length 8192; both fail with `EINVAL`. -/
theorem c2_split_rejects_witness :
    Map.split ⟨4096, 8192, PermTag.Read, KindTag.Private⟩ 5 4096 =
      ⟨.err ⟨⟨4096, 8192, PermTag.Read, KindTag.Private⟩, .fromRawOsError EINVAL⟩, false⟩
    ∧ Map.split ⟨4096, 8192, PermTag.Read, KindTag.Private⟩ 9000 4096 =
      ⟨.err ⟨⟨4096, 8192, PermTag.Read, KindTag.Private⟩, .fromRawOsError EINVAL⟩, false⟩ :=
  ⟨(c2_split_rejects ⟨4096, 8192, PermTag.Read, KindTag.Private⟩ 5 4096).1 4096
      (by decide) (by decide) (by decide),
   (c2_split_rejects ⟨4096, 8192, PermTag.Read, KindTag.Private⟩ 9000 4096).2 (by decide)⟩

/-- C6: `split_at` at an address `x ≥ A` behaves as `split` at offset
`x - A`; at an address `x < A` it behaves as `split` at the full
length `L`, which on an aligned in-bounds split makes the left piece
the whole Region and the right piece empty. -/
theorem c6_split_at_offset (m : Map) (x : Nat) (pres : Int) :
    (m.addr ≤ x → m.split_at x pres = m.split (x - m.addr) pres)
    ∧ (x < m.addr → m.split_at x pres = m.split m.size pres)
    ∧ (∀ psize : Nat, x < m.addr → usizeFromCLong pres = some psize →
        m.addr + m.size < USIZE → (m.addr + m.size) % psize = 0 →
        m.split_at x pres =
          { result := .ok ⟨m.addr, m.size, m.perm, m.kind⟩
              ⟨m.addr + m.size, m.size - m.size, m.perm, m.kind⟩
            forgotSelf := true }) := by
  refine ⟨fun hge => ?_, fun hlt => ?_, fun psize hlt hp hov ha => ?_⟩
  · unfold Map.split_at
    simp [hge]
  · unfold Map.split_at
    simp [Nat.not_le.mpr hlt]
  · have h2 : m.split_at x pres = m.split m.size pres := by
      unfold Map.split_at
      simp [Nat.not_le.mpr hlt]
    rw [h2]
    exact Map.split_success m m.size pres psize hp hov (le_refl _) ha

/-- Witness for C6 at `m = (8192, 4096)`: splitting at address 4096
(below the base) collapses to the full length, making the left piece
the whole Region and the right piece empty. -/
theorem c6_split_at_offset_witness :
    Map.split_at ⟨8192, 4096, PermTag.Read, KindTag.Private⟩ 4096 4096 =
      Map.split ⟨8192, 4096, PermTag.Read, KindTag.Private⟩ 4096 4096
    ∧ Map.split_at ⟨8192, 4096, PermTag.Read, KindTag.Private⟩ 4096 4096 =
      { result := .ok ⟨8192, 4096, PermTag.Read, KindTag.Private⟩
          ⟨8192 + 4096, 4096 - 4096, PermTag.Read, KindTag.Private⟩
        forgotSelf := true } :=
  ⟨(c6_split_at_offset ⟨8192, 4096, PermTag.Read, KindTag.Private⟩ 4096 4096).2.1
      (by decide),
   (c6_split_at_offset ⟨8192, 4096, PermTag.Read, KindTag.Private⟩ 4096 4096).2.2 4096
      (by decide) (by decide) (by decide) (by decide)⟩

/-- C9: when the page-size query's return value cannot be converted to
an unsigned size (it is negative), `split` fails with the
invalid-argument error `EINVAL` and returns the Region unchanged, for
every offset, including in-bounds ones. -/
theorem c9_split_pagesize_failure (m : Map) (o : Nat) (pres : Int)
    (h : pres < 0) :
    m.split o pres = ⟨.err ⟨m, .fromRawOsError EINVAL⟩, false⟩ := by
  unfold Map.split
  have hu : usizeFromCLong pres = none := by
    unfold usizeFromCLong
    rw [if_neg (by omega)]
  rw [hu]

/-- Witness for C9: page-size query returning -1 fails a split at an
in-bounds, otherwise aligned offset. -/
theorem c9_split_pagesize_failure_witness :
    Map.split ⟨4096, 8192, PermTag.Read, KindTag.Private⟩ 4096 (-1) =
      ⟨.err ⟨⟨4096, 8192, PermTag.Read, KindTag.Private⟩, .fromRawOsError EINVAL⟩,
        false⟩ :=
  c9_split_pagesize_failure ⟨4096, 8192, PermTag.Read, KindTag.Private⟩ 4096 (-1)
    (by decide)

/-- C4: `reprotect` on success yields a Region with the same address
and length and only the capability tag changed to the new selector's
tag — so the slice range is unchanged and slice access is gated by the
new tag's markers — and suppresses the old Region's release; on
failure it returns the original Region intact with the OS error. -/
theorem c4_reprotect_frame (m : Map) (p : PermVal) (ret errno : Int) :
    (ret = 0 →
      m.reprotect p ret errno =
        ⟨.ok ⟨m.addr, m.size, p.tag, m.kind⟩, true⟩
      ∧ Map.sliceRange ⟨m.addr, m.size, p.tag, m.kind⟩ = m.sliceRange
      ∧ Map.derefAllowed ⟨m.addr, m.size, p.tag, m.kind⟩
          = (m.kind.safe && p.tag.readable)
      ∧ Map.derefMutAllowed ⟨m.addr, m.size, p.tag, m.kind⟩
          = (m.kind.safe && p.tag.readable && p.tag.writeable))
    ∧ (ret ≠ 0 →
      m.reprotect p ret errno = ⟨.err ⟨m, .lastOsError errno⟩, false⟩) := by
  constructor
  · intro h0
    refine ⟨?_, rfl, rfl, rfl⟩
    unfold Map.reprotect
    simp [h0]
  · intro hne
    unfold Map.reprotect
    simp [hne]

/-- Witness for C4: reprotecting `(4096, 8192)` from `Read` to
`ReadWrite` with a successful `mprotect` keeps address and length and
retags; with a failing `mprotect` the original comes back with the OS
error. -/
theorem c4_reprotect_frame_witness :
    Map.reprotect ⟨4096, 8192, PermTag.Read, KindTag.Private⟩ PermVal.ReadWrite 0 0 =
      ⟨.ok ⟨4096, 8192, PermTag.ReadWrite, KindTag.Private⟩, true⟩
    ∧ Map.reprotect ⟨4096, 8192, PermTag.Read, KindTag.Private⟩ PermVal.ReadWrite (-1) 13 =
      ⟨.err ⟨⟨4096, 8192, PermTag.Read, KindTag.Private⟩, .lastOsError 13⟩, false⟩ :=
  ⟨((c4_reprotect_frame ⟨4096, 8192, PermTag.Read, KindTag.Private⟩
      PermVal.ReadWrite 0 0).1 rfl).1,
   (c4_reprotect_frame ⟨4096, 8192, PermTag.Read, KindTag.Private⟩
      PermVal.ReadWrite (-1) 13).2 (by decide)⟩

/-- C10: converting a known-capability Region into an
unknown-capability Region preserves the address and the length, sets
the tag to `Unknown`, keeps the kind, runs `forget` on the consumed
value (suppressing its release), and the new handle releases on drop
exactly when the old one would have. -/
theorem c10_into_unknown (m : Map) (h : m.perm ≠ PermTag.Unknown) :
    (m.intoUnknown.1.addr = m.addr)
    ∧ (m.intoUnknown.1.size = m.size)
    ∧ (m.intoUnknown.1.perm = PermTag.Unknown)
    ∧ (m.intoUnknown.1.kind = m.kind)
    ∧ (m.intoUnknown.2 = true)
    ∧ (m.intoUnknown.1.releasesOnDrop = m.releasesOnDrop) :=
  ⟨rfl, rfl, rfl, rfl, rfl, rfl⟩

/-- Witness for C10 at a readable private Region `(4096, 8192)`. -/
theorem c10_into_unknown_witness :
    (Map.intoUnknown ⟨4096, 8192, PermTag.Read, KindTag.Private⟩).1.addr = 4096
    ∧ (Map.intoUnknown ⟨4096, 8192, PermTag.Read, KindTag.Private⟩).1.size = 8192
    ∧ (Map.intoUnknown ⟨4096, 8192, PermTag.Read, KindTag.Private⟩).1.perm
        = PermTag.Unknown
    ∧ (Map.intoUnknown ⟨4096, 8192, PermTag.Read, KindTag.Private⟩).1.kind
        = KindTag.Private
    ∧ (Map.intoUnknown ⟨4096, 8192, PermTag.Read, KindTag.Private⟩).2 = true
    ∧ (Map.intoUnknown ⟨4096, 8192, PermTag.Read, KindTag.Private⟩).1.releasesOnDrop
        = (Map.releasesOnDrop ⟨4096, 8192, PermTag.Read, KindTag.Private⟩) :=
  c10_into_unknown ⟨4096, 8192, PermTag.Read, KindTag.Private⟩ (by decide)

/-- C3: a finalize whose placement directive is fixed-required (`At`),
hint (`Near`), or fixed-replacing (`Onto`) at address 0 always fails
with the invalid-argument error, returns the `Size`-stage payload
intact, and records no `mmap` invocation — whatever the huge-page
hint, descriptor, capability selector, or syscall behaviour. -/
theorem c3_zero_address_rejected {M : Type} (s : Source M) (perms : PermVal)
    (mmapRet : MmapRet)
    (h : s.prev.addr = Address.At 0 ∨ s.prev.addr = Address.Near 0 ∨
      s.prev.addr = Address.Onto 0) :
    Builder.map s perms mmapRet =
      { call := none
        result := .err ⟨s.prev.prev.prev, .fromKind .InvalidInput⟩
        forgotPrev := false } := by
  have hafter : ∀ huge : Int, Builder.mapAfterHuge s perms mmapRet huge =
      { call := none
        result := .err ⟨s.prev.prev.prev, .fromKind .InvalidInput⟩
        forgotPrev := false } := by
    intro huge
    unfold Builder.mapAfterHuge
    rcases h with h | h | h <;> rw [h] <;> simp [Builder.addrFixedOf]
  unfold Builder.map
  cases s.huge with
  | none => exact hafter 0
  | some x =>
    by_cases hx : i32And x (i32Not MAP_HUGE_MASK) ≠ 0
    · simp [hx]
    · simp only [hx, if_false]
      exact hafter _

/-- Witness for C3: an anonymous builder of 4096 bytes with
fixed-required placement at address 0 fails with invalid-argument,
returns the `()` payload, and never reaches `mmap` even though the
modelled syscall would have succeeded. -/
theorem c3_zero_address_rejected_witness :
    Builder.map (Builder.anonymously (Builder.at_ (Map.bytes 4096) 0))
      PermVal.Read (MmapRet.success 12288) =
      { call := none
        result := .err ⟨(), .fromKind .InvalidInput⟩
        forgotPrev := false } :=
  c3_zero_address_rejected (Builder.anonymously (Builder.at_ (Map.bytes 4096) 0))
    PermVal.Read (MmapRet.success 12288) (Or.inl rfl)

/-- C5: a finalize whose huge-page hint has bits outside
`MAP_HUGE_MASK` always fails with the invalid-argument error, returns
the `Size`-stage payload intact, and records no `mmap` invocation —
for every placement directive (so neither the placement translation's
outcome nor the syscall is ever observable on this path). -/
theorem c5_huge_hint_rejected {M : Type} (s : Source M) (perms : PermVal)
    (mmapRet : MmapRet) (x : Int)
    (hh : s.huge = some x)
    (hx : i32And x (i32Not MAP_HUGE_MASK) ≠ 0) :
    Builder.map s perms mmapRet =
      { call := none
        result := .err ⟨s.prev.prev.prev, .fromKind .InvalidInput⟩
        forgotPrev := false } := by
  unfold Builder.map
  rw [hh]
  simp [hx]

/-- Witness for C5: hint 64 does not fit the 6-bit huge-page mask;
even with an invalid placement (address 0) also present, the finalize
fails with invalid-argument and no `mmap` invocation is recorded. -/
theorem c5_huge_hint_rejected_witness :
    Builder.map
      (Builder.with_huge_pages
        (Builder.anonymously (Builder.at_ (Map.bytes 4096) 0)) 64)
      PermVal.Read (MmapRet.success 12288) =
      { call := none
        result := .err ⟨(), .fromKind .InvalidInput⟩
        forgotPrev := false } :=
  c5_huge_hint_rejected
    (Builder.with_huge_pages
      (Builder.anonymously (Builder.at_ (Map.bytes 4096) 0)) 64)
    PermVal.Read (MmapRet.success 12288) 64 rfl (by decide)


/-! ### Builder finalize: shared helper lemmas -/

/-- With no huge-page hint, finalize proceeds with huge-flag bits 0. -/
theorem Builder.map_huge_none {M : Type} (s : Source M) (p : PermVal) (r : MmapRet)
    (hh : s.huge = none) : Builder.map s p r = Builder.mapAfterHuge s p r 0 := by
  unfold Builder.map
  rw [hh]

/-- A huge-page hint with bits outside the mask fails immediately. -/
theorem Builder.map_huge_bad {M : Type} (s : Source M) (p : PermVal) (r : MmapRet)
    (x : Int) (hh : s.huge = some x) (hx : i32And x (i32Not MAP_HUGE_MASK) ≠ 0) :
    Builder.map s p r =
      { call := none
        result := .err ⟨s.prev.prev.prev, .fromKind .InvalidInput⟩
        forgotPrev := false } := by
  unfold Builder.map
  rw [hh]
  exact if_pos hx

/-- A huge-page hint inside the mask proceeds with the encoded flag bits. -/
theorem Builder.map_huge_good {M : Type} (s : Source M) (p : PermVal) (r : MmapRet)
    (x : Int) (hh : s.huge = some x) (hx : ¬i32And x (i32Not MAP_HUGE_MASK) ≠ 0) :
    Builder.map s p r =
      Builder.mapAfterHuge s p r (i32Or (i32Shl x MAP_HUGE_SHIFT) MAP_HUGETLB) := by
  unfold Builder.map
  rw [hh]
  exact if_neg hx

/-- Every error produced after the huge-page check carries back exactly
the `Size`-stage payload. -/
theorem Builder.mapAfterHuge_err_payload {M : Type} (s : Source M) (p : PermVal)
    (r : MmapRet) (huge : Int) (e : MError M)
    (h : (Builder.mapAfterHuge s p r huge).result = .err e) :
    e.map = s.prev.prev.prev := by
  unfold Builder.mapAfterHuge at h
  cases haf : Builder.addrFixedOf s.prev.addr with
  | none =>
    rw [haf] at h
    simp only [MapRes.err.injEq] at h
    rw [← h]
  | some af =>
    rcases af with ⟨addr, fixed⟩
    rw [haf] at h
    cases r with
    | failed errno =>
      simp only [MapRes.err.injEq] at h
      rw [← h]
    | success retAddr => simp at h

/-- Every error produced by finalize carries back exactly the
`Size`-stage payload. -/
theorem Builder.map_err_payload {M : Type} (s : Source M) (p : PermVal)
    (r : MmapRet) (e : MError M)
    (h : (Builder.map s p r).result = .err e) :
    e.map = s.prev.prev.prev := by
  cases hh : s.huge with
  | none =>
    rw [Builder.map_huge_none s p r hh] at h
    exact Builder.mapAfterHuge_err_payload s p r 0 e h
  | some x =>
    by_cases hx : i32And x (i32Not MAP_HUGE_MASK) ≠ 0
    · rw [Builder.map_huge_bad s p r x hh hx] at h
      simp only [MapRes.err.injEq] at h
      rw [← h]
    · rw [Builder.map_huge_good s p r x hh hx] at h
      exact Builder.mapAfterHuge_err_payload s p r _ e h

/-- A successful finalize (after the huge-page check) runs `forget`
on the `Size`-stage payload. -/
theorem Builder.mapAfterHuge_ok_forgets {M : Type} (s : Source M) (p : PermVal)
    (r : MmapRet) (huge : Int) (mp : Map)
    (h : (Builder.mapAfterHuge s p r huge).result = .ok mp) :
    (Builder.mapAfterHuge s p r huge).forgotPrev = true := by
  unfold Builder.mapAfterHuge at *
  cases haf : Builder.addrFixedOf s.prev.addr with
  | none => rw [haf] at h; simp at h
  | some af =>
    rcases af with ⟨addr, fixed⟩
    rw [haf] at h
    cases r with
    | failed errno => simp at h
    | success retAddr => rfl

/-- A successful finalize runs `forget` on the `Size`-stage payload. -/
theorem Builder.map_ok_forgets {M : Type} (s : Source M) (p : PermVal)
    (r : MmapRet) (mp : Map)
    (h : (Builder.map s p r).result = .ok mp) :
    (Builder.map s p r).forgotPrev = true := by
  cases hh : s.huge with
  | none =>
    rw [Builder.map_huge_none s p r hh] at h ⊢
    exact Builder.mapAfterHuge_ok_forgets s p r 0 mp h
  | some x =>
    by_cases hx : i32And x (i32Not MAP_HUGE_MASK) ≠ 0
    · rw [Builder.map_huge_bad s p r x hh hx] at h
      simp at h
    · rw [Builder.map_huge_good s p r x hh hx] at h ⊢
      exact Builder.mapAfterHuge_ok_forgets s p r _ mp h

/-- Whenever finalize records an `mmap` invocation, its flags are the
combination `kind | fixed | anon | huge` with `anon` forced by the
no-file sentinel and `fixed` coming from the placement translation. -/
theorem Builder.mapAfterHuge_call_flags {M : Type} (s : Source M) (p : PermVal)
    (r : MmapRet) (huge : Int) (c : MmapCall)
    (hc : (Builder.mapAfterHuge s p r huge).call = some c) :
    ∃ addr fixed, Builder.addrFixedOf s.prev.addr = some (addr, fixed) ∧
      c.flags = i32Or (i32Or (i32Or s.kind.kind fixed)
        (if s.fd = -1 then MAP_ANONYMOUS else 0)) huge := by
  unfold Builder.mapAfterHuge at hc
  cases haf : Builder.addrFixedOf s.prev.addr with
  | none => rw [haf] at hc; simp at hc
  | some af =>
    rcases af with ⟨addr, fixed⟩
    rw [haf] at hc
    cases r with
    | failed errno =>
      refine ⟨addr, fixed, rfl, ?_⟩
      simp only [Option.some.injEq] at hc
      rw [← hc]
    | success retAddr =>
      refine ⟨addr, fixed, rfl, ?_⟩
      simp only [Option.some.injEq] at hc
      rw [← hc]

/-- The placement translation only ever produces the fixed-flag values
0, `MAP_FIXED`, or `MAP_FIXED_NOREPLACE`. -/
theorem Builder.addrFixedOf_fixed (a : Address) (addr : Nat) (fixed : Int)
    (h : Builder.addrFixedOf a = some (addr, fixed)) :
    fixed = 0 ∨ fixed = MAP_FIXED ∨ fixed = MAP_FIXED_NOREPLACE := by
  cases a with
  | None =>
    simp only [Builder.addrFixedOf, Option.some.injEq, Prod.mk.injEq] at h
    exact Or.inl h.2.symm
  | At a =>
    by_cases ha : a = 0 <;> simp only [Builder.addrFixedOf, ha] at h
    · simp only [ne_eq, not_true_eq_false, if_false] at h
      cases h
    · rw [if_pos ha] at h
      simp only [Option.some.injEq, Prod.mk.injEq] at h
      exact Or.inr (Or.inr h.2.symm)
  | Near a =>
    by_cases ha : a = 0 <;> simp only [Builder.addrFixedOf, ha] at h
    · simp only [ne_eq, not_true_eq_false, if_false] at h
      cases h
    · rw [if_pos ha] at h
      simp only [Option.some.injEq, Prod.mk.injEq] at h
      exact Or.inl h.2.symm
  | Onto a =>
    by_cases ha : a = 0 <;> simp only [Builder.addrFixedOf, ha] at h
    · simp only [ne_eq, not_true_eq_false, if_false] at h
      cases h
    · rw [if_pos ha] at h
      simp only [Option.some.injEq, Prod.mk.injEq] at h
      exact Or.inr (Or.inl h.2.symm)

set_option maxRecDepth 4096 in
/-- Hint values below 64 pass the huge-page mask check. -/
theorem hugeMask_lt64 : ∀ n : Nat, n < 64 →
    i32And (n : Int) (i32Not MAP_HUGE_MASK) = 0 := by
  decide

set_option maxRecDepth 8192 in
/-- Hint values from 64 to 255 fail the huge-page mask check. -/
theorem hugeMask_ge64 : ∀ n : Nat, n < 256 → 64 ≤ n →
    i32And (n : Int) (i32Not MAP_HUGE_MASK) ≠ 0 := by
  decide

/-! Bit-5 (`MAP_ANONYMOUS`) extraction from every reachable flag
combination, one kind/fixed pair at a time. -/

set_option maxRecDepth 8192 in
theorem flags_anon_ball_1_0 : ∀ n : Nat, n < 65 →
    i32And (i32Or (i32Or (i32Or 1 0) 0) (hugeOf n)) MAP_ANONYMOUS = 0
    ∧ i32And (i32Or (i32Or (i32Or 1 0) MAP_ANONYMOUS) (hugeOf n)) MAP_ANONYMOUS
        = MAP_ANONYMOUS := by
  decide

set_option maxRecDepth 8192 in
theorem flags_anon_ball_1_16 : ∀ n : Nat, n < 65 →
    i32And (i32Or (i32Or (i32Or 1 MAP_FIXED) 0) (hugeOf n)) MAP_ANONYMOUS = 0
    ∧ i32And (i32Or (i32Or (i32Or 1 MAP_FIXED) MAP_ANONYMOUS) (hugeOf n)) MAP_ANONYMOUS
        = MAP_ANONYMOUS := by
  decide

set_option maxRecDepth 8192 in
theorem flags_anon_ball_1_nr : ∀ n : Nat, n < 65 →
    i32And (i32Or (i32Or (i32Or 1 MAP_FIXED_NOREPLACE) 0) (hugeOf n)) MAP_ANONYMOUS = 0
    ∧ i32And (i32Or (i32Or (i32Or 1 MAP_FIXED_NOREPLACE) MAP_ANONYMOUS) (hugeOf n))
        MAP_ANONYMOUS = MAP_ANONYMOUS := by
  decide

set_option maxRecDepth 8192 in
theorem flags_anon_ball_2_0 : ∀ n : Nat, n < 65 →
    i32And (i32Or (i32Or (i32Or 2 0) 0) (hugeOf n)) MAP_ANONYMOUS = 0
    ∧ i32And (i32Or (i32Or (i32Or 2 0) MAP_ANONYMOUS) (hugeOf n)) MAP_ANONYMOUS
        = MAP_ANONYMOUS := by
  decide

set_option maxRecDepth 8192 in
theorem flags_anon_ball_2_16 : ∀ n : Nat, n < 65 →
    i32And (i32Or (i32Or (i32Or 2 MAP_FIXED) 0) (hugeOf n)) MAP_ANONYMOUS = 0
    ∧ i32And (i32Or (i32Or (i32Or 2 MAP_FIXED) MAP_ANONYMOUS) (hugeOf n)) MAP_ANONYMOUS
        = MAP_ANONYMOUS := by
  decide

set_option maxRecDepth 8192 in
theorem flags_anon_ball_2_nr : ∀ n : Nat, n < 65 →
    i32And (i32Or (i32Or (i32Or 2 MAP_FIXED_NOREPLACE) 0) (hugeOf n)) MAP_ANONYMOUS = 0
    ∧ i32And (i32Or (i32Or (i32Or 2 MAP_FIXED_NOREPLACE) MAP_ANONYMOUS) (hugeOf n))
        MAP_ANONYMOUS = MAP_ANONYMOUS := by
  decide

/-- Bit-5 extraction: for every reachable kind value, fixed flag,
anonymous component, and huge-page flag component, the `MAP_ANONYMOUS`
bit of the combined flags equals the anonymous component. -/
theorem i32And_flags_anon (k f a h : Int)
    (hk : k = 1 ∨ k = 2)
    (hf : f = 0 ∨ f = MAP_FIXED ∨ f = MAP_FIXED_NOREPLACE)
    (ha : a = 0 ∨ a = MAP_ANONYMOUS)
    (hh : ∃ n : Nat, n < 65 ∧ h = hugeOf n) :
    i32And (i32Or (i32Or (i32Or k f) a) h) MAP_ANONYMOUS = a := by
  obtain ⟨n, hn, rfl⟩ := hh
  rcases hk with rfl | rfl <;> rcases hf with rfl | rfl | rfl <;>
    rcases ha with rfl | rfl
  · exact (flags_anon_ball_1_0 n hn).1
  · exact (flags_anon_ball_1_0 n hn).2
  · exact (flags_anon_ball_1_16 n hn).1
  · exact (flags_anon_ball_1_16 n hn).2
  · exact (flags_anon_ball_1_nr n hn).1
  · exact (flags_anon_ball_1_nr n hn).2
  · exact (flags_anon_ball_2_0 n hn).1
  · exact (flags_anon_ball_2_0 n hn).2
  · exact (flags_anon_ball_2_16 n hn).1
  · exact (flags_anon_ball_2_16 n hn).2
  · exact (flags_anon_ball_2_nr n hn).1
  · exact (flags_anon_ball_2_nr n hn).2

/-- C7: `remap` re-enters the `Destination` stage with placement
fixed-replacing (`Onto`) at the Region's own current address, size
equal to the Region's length, and the Region itself as the carried
payload; every finalize failure from that stage returns the original
Region whole in the error, and every finalize success suppresses the
old Region's release. -/
theorem c7_remap_ownership (m : Map) (s : Source Map) (hs : s.prev = m.remap)
    (p : PermVal) (r : MmapRet) :
    m.remap.addr = Address.Onto m.addr
    ∧ m.remap.prev.size = m.size
    ∧ m.remap.prev.prev = m
    ∧ (∀ e, (Builder.map s p r).result = .err e → e.map = m)
    ∧ (∀ mp, (Builder.map s p r).result = .ok mp →
        (Builder.map s p r).forgotPrev = true) := by
  refine ⟨rfl, rfl, rfl, fun e he => ?_,
    fun mp hmp => Builder.map_ok_forgets s p r mp hmp⟩
  have h := Builder.map_err_payload s p r e he
  rw [h, hs]
  rfl

/-- Witness for C7 at the Region `(4096, 8192)` with a file-backed
source: the remap placement is `Onto 4096`; a failing `mmap` hands the
original Region back in the error; a succeeding `mmap` runs `forget`
on it. -/
theorem c7_remap_ownership_witness :
    (Map.remap ⟨4096, 8192, PermTag.Read, KindTag.Private⟩).addr = Address.Onto 4096
    ∧ (⟨⟨4096, 8192, PermTag.Read, KindTag.Private⟩,
        IoErrorRep.lastOsError 12⟩ : MError Map).map
        = ⟨4096, 8192, PermTag.Read, KindTag.Private⟩
    ∧ (Builder.map
        (Builder.fromFile (Map.remap ⟨4096, 8192, PermTag.Read, KindTag.Private⟩) 3 0)
        PermVal.Read (MmapRet.success 4096)).forgotPrev = true := by
  have hf := c7_remap_ownership ⟨4096, 8192, PermTag.Read, KindTag.Private⟩
    (Builder.fromFile (Map.remap ⟨4096, 8192, PermTag.Read, KindTag.Private⟩) 3 0) rfl
    PermVal.Read (MmapRet.failed 12)
  have hsucc := c7_remap_ownership ⟨4096, 8192, PermTag.Read, KindTag.Private⟩
    (Builder.fromFile (Map.remap ⟨4096, 8192, PermTag.Read, KindTag.Private⟩) 3 0) rfl
    PermVal.Read (MmapRet.success 4096)
  refine ⟨hf.1, ?_, ?_⟩
  · exact hf.2.2.2.1
      ⟨⟨4096, 8192, PermTag.Read, KindTag.Private⟩, IoErrorRep.lastOsError 12⟩
      (by decide)
  · exact hsucc.2.2.2.2 ⟨4096, 8192, PermTag.Read, KindTag.Private⟩ (by decide)

/-- C8: `anonymously` constructs a `Source` stage with offset 0 and
the no-file sentinel descriptor `-1`; and at finalize time, whenever
the `mmap` invocation is issued, its flags carry the `MAP_ANONYMOUS`
bit exactly when the descriptor is the sentinel `-1` (for every
placement, kind, capability selector, and reachable huge-page hint). -/
theorem c8_anonymous_flag {M : Type} (d : Destination M) (s : Source M)
    (p : PermVal) (r : MmapRet)
    (hhuge : s.huge = none ∨ ∃ n : Nat, n < 256 ∧ s.huge = some (n : Int)) :
    (Builder.anonymously d).offset = 0
    ∧ (Builder.anonymously d).fd = -1
    ∧ (∀ c, (Builder.map s p r).call = some c →
        i32And c.flags MAP_ANONYMOUS = if s.fd = -1 then MAP_ANONYMOUS else 0) := by
  refine ⟨rfl, rfl, fun c hc => ?_⟩
  have hkind : s.kind.kind = 1 ∨ s.kind.kind = 2 := by
    cases s.kind
    · exact Or.inr rfl
    · exact Or.inl rfl
  have hanon : (if s.fd = -1 then MAP_ANONYMOUS else 0) = 0
      ∨ (if s.fd = -1 then MAP_ANONYMOUS else 0) = MAP_ANONYMOUS := by
    by_cases hfd : s.fd = -1
    · rw [if_pos hfd]; exact Or.inr rfl
    · rw [if_neg hfd]; exact Or.inl rfl
  rcases hhuge with hh | ⟨n, hn, hh⟩
  · rw [Builder.map_huge_none s p r hh] at hc
    obtain ⟨addr, fixed, haf, hfl⟩ := Builder.mapAfterHuge_call_flags s p r 0 c hc
    rw [hfl]
    exact i32And_flags_anon _ _ _ _ hkind
      (Builder.addrFixedOf_fixed _ _ _ haf) hanon ⟨64, by omega, by decide⟩
  · by_cases h64 : n < 64
    · have hok : ¬i32And (n : Int) (i32Not MAP_HUGE_MASK) ≠ 0 :=
        not_not_intro (hugeMask_lt64 n h64)
      rw [Builder.map_huge_good s p r _ hh hok] at hc
      obtain ⟨addr, fixed, haf, hfl⟩ := Builder.mapAfterHuge_call_flags s p r _ c hc
      rw [hfl]
      refine i32And_flags_anon _ _ _ _ hkind
        (Builder.addrFixedOf_fixed _ _ _ haf) hanon ⟨n, by omega, ?_⟩
      unfold hugeOf
      rw [if_neg (by omega)]
    · have hbad : i32And (n : Int) (i32Not MAP_HUGE_MASK) ≠ 0 :=
        hugeMask_ge64 n hn (by omega)
      rw [Builder.map_huge_bad s p r _ hh hbad] at hc
      simp at hc

/-- Witness for C8: the anonymous builder of 4096 bytes placed
anywhere records an `mmap` call whose flags
`MAP_PRIVATE | MAP_ANONYMOUS` carry the anonymous bit. -/
theorem c8_anonymous_flag_witness :
    (Builder.anonymously (Builder.anywhere (Map.bytes 4096))).offset = 0
    ∧ (Builder.anonymously (Builder.anywhere (Map.bytes 4096))).fd = -1
    ∧ i32And (MmapCall.flags ⟨0, 4096, PROT_READ, i32Or (i32Or (i32Or 2 0) 32) 0, -1, 0⟩)
        MAP_ANONYMOUS = MAP_ANONYMOUS := by
  have h := c8_anonymous_flag (Builder.anywhere (Map.bytes 4096))
    (Builder.anonymously (Builder.anywhere (Map.bytes 4096))) PermVal.Read
    (MmapRet.success 12288) (Or.inl rfl)
  refine ⟨h.1, h.2.1, ?_⟩
  have h3 := h.2.2 ⟨0, 4096, PROT_READ, i32Or (i32Or (i32Or 2 0) 32) 0, -1, 0⟩ (by decide)
  simpa [Builder.anonymously] using h3
